import Mathlib

/-!
Shallow embedding of the `id` repository (crates `idlib` and `idbin`).

The embedding covers:
* `idlib/src/lib.rs`: `Variables::from_env`, `SecretKey::from_env`,
  `PermissionResponse` deserialization;
* `idbin/src/invite.rs`: the invite handlers, their `Authorize` capability
  descriptors, `delete_invite_impl`, and the redirect responses;
* the `authenticate` / `authorize` modules of `idlib`, whose source files are
  not present in the repository snapshot: those parts (token codec, policy
  engine, authorize guard) are modelled from the specification and are marked
  as such in their doc comments.

Rust machine integers are modelled as `Nat` with explicit range checks where
the source checks them (`u32` parsing); fallible operations return
`Option` / `Except`.
-/

/-- Process environment, modelling `std::env`: a finite association list from
variable names to values; `envVar` is `env::var`, returning `none` when the
variable is absent. -/
def Env : Type := List (String × String)

/-- Lookup of an environment variable, modelling `std::env::var`. -/
def envVar (env : Env) (name : String) : Option String :=
  (env.find? (fun p => p.1 = name)).map (·.2)

/-- Value of one character in the standard base64 alphabet
(`A`-`Z`, `a`-`z`, `0`-`9`, `+`, `/`), as used by `base64::decode`. -/
def b64StdVal (c : Char) : Option Nat :=
  if 'A' ≤ c ∧ c ≤ 'Z' then some (c.toNat - 65)
  else if 'a' ≤ c ∧ c ≤ 'z' then some (c.toNat - 97 + 26)
  else if '0' ≤ c ∧ c ≤ '9' then some (c.toNat - 48 + 52)
  else if c = '+' then some 62
  else if c = '/' then some 63
  else none

/-- Value of one character in the base64url alphabet
(`A`-`Z`, `a`-`z`, `0`-`9`, `-`, `_`), used by the token codec. -/
def b64UrlVal (c : Char) : Option Nat :=
  if 'A' ≤ c ∧ c ≤ 'Z' then some (c.toNat - 65)
  else if 'a' ≤ c ∧ c ≤ 'z' then some (c.toNat - 97 + 26)
  else if '0' ≤ c ∧ c ≤ '9' then some (c.toNat - 48 + 52)
  else if c = '-' then some 62
  else if c = '_' then some 63
  else none

/-- Map a fallible function over a list, failing if any element fails.
Used to model character-by-character decoding and serde sequence
deserialization. -/
def mapOption (f : α → Option β) : List α → Option (List β)
  | [] => some []
  | a :: t => do
      let b ← f a
      let bs ← mapOption f t
      pure (b :: bs)

/-- Reassemble 6-bit symbol values into 8-bit bytes.  A trailing group of one
symbol is invalid; trailing groups of two or three symbols must have their
unused low bits zero (canonical encoding check done by `base64` v0.13). -/
def b64Bytes : List Nat → Option (List Nat)
  | [] => some []
  | [_] => none
  | [a, b] => if b % 16 = 0 then some [a * 4 + b / 16] else none
  | [a, b, c] =>
      if c % 4 = 0 then some [a * 4 + b / 16, b % 16 * 16 + c / 4] else none
  | a :: b :: c :: d :: rest => do
      let tail ← b64Bytes rest
      pure ((a * 4 + b / 16) :: (b % 16 * 16 + c / 4) :: (c % 4 * 64 + d) :: tail)

/-- Strip trailing `=` padding: at most two pad characters, and when padding
is present the padded length must be a multiple of four. -/
def b64StripPad (cs : List Char) : Option (List Char) :=
  let rev := cs.reverse
  let pads := (rev.takeWhile (fun c => c = '=')).length
  let core := (rev.dropWhile (fun c => c = '=')).reverse
  if pads > 2 then none
  else if pads > 0 ∧ (core.length + pads) % 4 ≠ 0 then none
  else some core

/-- Generic base64 decoding over a given alphabet: strip padding, translate
each symbol, reassemble bytes.  A core length of 1 mod 4 is rejected by
`b64Bytes`; a symbol outside the alphabet (including an interior `=`) is
rejected by the translation step. -/
def b64DecodeWith (tab : Char → Option Nat) (s : String) : Option (List Nat) := do
  let core ← b64StripPad s.data
  let vals ← mapOption tab core
  b64Bytes vals

/-- Standard base64 decoding, modelling `base64::decode`. -/
def base64Decode (s : String) : Option (List Nat) :=
  b64DecodeWith b64StdVal s

/-- Base64url decoding, used by the token codec for the three token parts. -/
def base64UrlDecode (s : String) : Option (List Nat) :=
  b64DecodeWith b64UrlVal s

/-- Parsing of a `u32` from a string, modelling `str::parse::<u32>`: an
optional leading `+`, then one or more ASCII digits, and the value must fit
in 32 bits. -/
def parseU32 (s : String) : Option Nat :=
  let t := match s.data with
    | '+' :: rest => rest
    | l => l
  if t ≠ [] ∧ t.all Char.isDigit then
    let n := t.foldl (fun a c => a * 10 + (c.toNat - 48)) 0
    if n < 4294967296 then some n else none
  else none

/-- The configuration record of `idlib` (struct `Variables`). -/
structure Variables where
  idp_refresh_address : String
  idp_login_address : String
  token_duration_seconds : Nat
  service_name : String
deriving DecidableEq

/-- `Variables::from_env`: reads the four required environment variables,
parsing the token duration as `u32`.  Each `expect` / parse failure is a
panic in the source, modelled as `Except.error` carrying the panic message. -/
def Variables.from_env (env : Env) : Except String Variables :=
  match envVar env "IDP_LOGIN_ADDR" with
  | none => .error "IDP_LOGIN_ADDR not set"
  | some login =>
    match envVar env "IDP_REFRESH_ADDR" with
    | none => .error "IDP_REFRESH_ADDR not set"
    | some refresh =>
      match envVar env "TOKEN_DURATION_SECONDS" with
      | none => .error "TOKEN_DURATION_SECONDS not set"
      | some ds =>
        match parseU32 ds with
        | none => .error "Expected integer"
        | some d =>
          match envVar env "SERVICE_NAME" with
          | none => .error "SERVICE_NAME not set"
          | some name =>
            .ok { idp_refresh_address := refresh
                  idp_login_address := login
                  token_duration_seconds := d
                  service_name := name }

/-- An HMAC-SHA256 keyed-hash context holding the key material. -/
structure HmacSha256 where
  key : List Nat
deriving DecidableEq

/-- `Hmac::<Sha256>::new_from_slice`: per the HMAC construction, a key of any
length is accepted (shorter keys are padded, longer keys are hashed), so the
constructor never returns `InvalidLength` for SHA-256. -/
def hmacNewFromSlice (k : List Nat) : Except String HmacSha256 :=
  .ok { key := k }

/-- The `SecretKey` wrapper around the shared HMAC context. -/
structure SecretKey where
  mac : HmacSha256
deriving DecidableEq

/-- `SecretKey::from_env`: read `IDP_SECRET_KEY`, base64-decode it, and build
the HMAC-SHA256 context.  Each failure is a panic in the source
(`expect` / `unwrap`), modelled as `Except.error`. -/
def SecretKey.from_env (env : Env) : Except String SecretKey :=
  match envVar env "IDP_SECRET_KEY" with
  | none => .error "IDP_SECRET_KEY not set"
  | some s =>
    match base64Decode s with
    | none => .error "called unwrap on a base64 decode error"
    | some bytes =>
      match hmacNewFromSlice bytes with
      | .error e => .error e
      | .ok h => .ok { mac := h }

/-- JSON values, for modelling serde deserialization of the permission-fetch
response body. -/
inductive Json where
  | null
  | bool (b : Bool)
  | num (n : Int)
  | str (s : String)
  | arr (xs : List Json)
  | obj (fields : List (String × Json))

/-- Deserialize a JSON value as a `String`. -/
def Json.getStr : Json → Option String
  | .str s => some s
  | _ => none

/-- Deserialize a JSON value as a `Vec<String>`: an array of strings of any
length. -/
def deserStringList : Json → Option (List String)
  | .arr xs => mapOption Json.getStr xs
  | _ => none

/-- Deserialize a JSON value as a `Vec<Vec<String>>`, the type of the
`policy` and `group_policy` fields of `PermissionResponse`. -/
def deserPolicyField : Json → Option (List (List String))
  | .arr xs => mapOption deserStringList xs
  | _ => none

/-- First field of the given name in a JSON object. -/
def jsonField (fields : List (String × Json)) (name : String) : Option Json :=
  (fields.find? (fun p => p.1 = name)).map (·.2)

/-- The `PermissionResponse` struct of `idlib`: both fields are
`Vec<Vec<String>>` in the source. -/
structure PermissionResponse where
  policy : List (List String)
  group_policy : List (List String)
deriving DecidableEq

/-- Serde-derived deserialization of `PermissionResponse` from a JSON value:
an object carrying a `policy` field and a `group_policy` field, each an array
of arrays of strings. -/
def deserPermissionResponse : Json → Option PermissionResponse
  | .obj fields => do
      let p ← jsonField fields "policy"
      let ps ← deserPolicyField p
      let g ← jsonField fields "group_policy"
      let gs ← deserPolicyField g
      pure { policy := ps, group_policy := gs }
  | _ => none

/-- Serialization of a `Vec<String>` back to JSON, used to state that
deserialization accepts inner sequences of every length. -/
def encodeStringList (l : List String) : Json :=
  .arr (l.map .str)

/-- Serialization of a `Vec<Vec<String>>` back to JSON. -/
def encodePolicyField (p : List (List String)) : Json :=
  .arr (p.map encodeStringList)

/-- The identity produced by a successful authorization. -/
structure Identity where
  username : String
  groups : List String
deriving DecidableEq

/-- A policy rule: triple of subject pattern, resource, action. -/
structure PolicyRule where
  subject : String
  resource : String
  action : String
deriving DecidableEq

/-- A policy set: user rules and group rules. -/
structure PolicySet where
  policy : List PolicyRule
  group_policy : List PolicyRule
deriving DecidableEq

/-- Modelled from the spec: the `authorize` module of `idlib` is not under
`src/`.  A rule matches a request against `policy` when its subject pattern
equals the identity's username or is the wildcard `"*"`, and resource and
action each equal the request's or are `"*"`; comparisons are case-sensitive
string equality. -/
def ruleMatchesUser (id : Identity) (resource action : String)
    (r : PolicyRule) : Bool :=
  (r.subject == id.username || r.subject == "*") &&
  (r.resource == resource || r.resource == "*") &&
  (r.action == action || r.action == "*")

/-- Modelled from the spec: a rule matches a request against `group_policy`
when its subject pattern equals some element of the identity's groups or is
`"*"`, with the same resource and action conditions. -/
def ruleMatchesGroup (id : Identity) (resource action : String)
    (r : PolicyRule) : Bool :=
  (id.groups.contains r.subject || r.subject == "*") &&
  (r.resource == resource || r.resource == "*") &&
  (r.action == action || r.action == "*")

/-- Modelled from the spec: `is_authorized` of the absent `authorize` module.
Deny-by-default evaluation: true iff at least one rule of `policy` or
`group_policy` matches. -/
def is_authorized (id : Identity) (resource action : String)
    (ps : PolicySet) : Bool :=
  ps.policy.any (ruleMatchesUser id resource action) ||
  ps.group_policy.any (ruleMatchesGroup id resource action)

/-- Accumulating splitter for `splitOnDot`: `acc` holds the characters of the
current component in reverse. -/
def splitOnDotAux : List Char → List Char → List String
  | [], acc => [String.mk acc.reverse]
  | '.' :: t, acc => String.mk acc.reverse :: splitOnDotAux t []
  | c :: t, acc => splitOnDotAux t (c :: acc)

/-- Split a string into its `.`-separated components, the token delimiter
split of the codec. -/
def splitOnDot (s : String) : List String :=
  splitOnDotAux s.data []

/-- The claims carried inside a token. -/
structure Claims where
  username : String
  groups : List String
  issued_at : Int
  expires_at : Int
deriving DecidableEq

/-- Errors of the token codec. -/
inductive TokenError where
  | Malformed
  | InvalidSignature
  | Expired
deriving DecidableEq

/-- Modelled from the spec: `decode_and_verify` of the absent `authenticate`
module, following the five steps of the codec contract.  The keyed MAC
primitive (`mac`, computing the MAC over the raw header‖`.`‖payload string
under the shared key) and the claims deserializer (`deser`) are parameters,
since their concrete implementations are also absent from `src/`.
1. split on `.` into exactly three parts, else `Malformed`;
2. base64url-decode the parts, else `Malformed`;
3. compare the recomputed MAC with the decoded signature, else
   `InvalidSignature`;
4. deserialize the payload bytes into claims, else `Malformed`;
5. require `now < expires_at`, else `Expired`. -/
def decode_and_verify (mac : String → List Nat)
    (deser : List Nat → Option Claims) (token : String) (now : Int) :
    Except TokenError Claims :=
  match splitOnDot token with
  | [h, p, s] =>
    match base64UrlDecode h, base64UrlDecode p, base64UrlDecode s with
    | some _, some pb, some sb =>
      if mac (h ++ "." ++ p) = sb then
        match deser pb with
        | some claims =>
            if now < claims.expires_at then .ok claims else .error .Expired
        | none => .error .Malformed
      else .error .InvalidSignature
    | _, _, _ => .error .Malformed
  | _ => .error .Malformed

/-- Errors of the refresh flow. -/
inductive RefreshError where
  | Unavailable
  | Rejected
deriving DecidableEq

/-- The observable outcomes of the authorize guard: proceed with an identity,
redirect to login, deny for insufficient capability, or deny for a hard
authentication failure (tampered or malformed token). -/
inductive GuardOutcome where
  | Authorized (id : Identity)
  | LoginRedirect
  | CapabilityDenied
  | AuthDenied
deriving DecidableEq

/-- Identity extracted from verified claims. -/
def identityOfClaims (c : Claims) : Identity :=
  { username := c.username, groups := c.groups }

/-- Modelled from the spec: the authorize guard state machine of the absent
`authorize` module.  No token → login redirect; verification failure with
`InvalidSignature` or `Malformed` → terminal denial; `Expired` → refresh,
whose success re-enters verification with the new token and whose failure
(either `RefreshError`) → login redirect; valid claims → policy check for the
operation's declared capability, authorized or capability denial. -/
def authorize_guard (mac : String → List Nat)
    (deser : List Nat → Option Claims)
    (refresh : String → Except RefreshError String)
    (token : Option String) (now : Int) (ps : PolicySet)
    (resource action : String) : GuardOutcome :=
  match token with
  | none => .LoginRedirect
  | some tok =>
    match decode_and_verify mac deser tok now with
    | .ok claims =>
        if is_authorized (identityOfClaims claims) resource action ps then
          .Authorized (identityOfClaims claims)
        else .CapabilityDenied
    | .error .Expired =>
        match refresh tok with
        | .ok newTok =>
            match decode_and_verify mac deser newTok now with
            | .ok claims =>
                if is_authorized (identityOfClaims claims) resource action ps then
                  .Authorized (identityOfClaims claims)
                else .CapabilityDenied
            | .error _ => .LoginRedirect
        | .error _ => .LoginRedirect
    | .error _ => .AuthDenied

/-- The request data reaching the invite handlers of `idbin/src/invite.rs`:
the query parameters of `page`, the form of `delete_page`, and the form
of `create_page`. -/
structure InviteRequest where
  query_error : Option String
  form_key : String
  form_services : List (String × String)

/-- A required capability: the `(resource, action)` pair of an `Authorize`
extractor. -/
structure Capability where
  resource : String
  action : String
deriving DecidableEq

/-- Capability required by `page`, from its extractor
`Authorize<"invite", "read">`: the const generic arguments are fixed in the
handler's signature, so the function ignores the request. -/
def page_required_capability (_req : InviteRequest) : Capability :=
  { resource := "invite", action := "read" }

/-- Capability required by `delete_page`, from its extractor
`Authorize<"invite", "write">`. -/
def delete_page_required_capability (_req : InviteRequest) : Capability :=
  { resource := "invite", action := "write" }

/-- Capability required by `create_page`, from its extractor
`Authorize<"invite", "write">`. -/
def create_page_required_capability (_req : InviteRequest) : Capability :=
  { resource := "invite", action := "write" }

/-- A row of the `users` table; `invite_key` is nullable. -/
structure UserRow where
  username : String
  invite_key : Option String
deriving DecidableEq

/-- A row of the `user_invites` table. -/
structure InviteRow where
  key : String
  created_by : String
  created_at : Int
  services : String
deriving DecidableEq

/-- An entry of the audit log written by `audit::log`. -/
structure AuditEntry where
  action : String
  author : String
deriving DecidableEq

/-- The SQLite database state seen by the invite handlers. -/
structure Db where
  users : List UserRow
  user_invites : List InviteRow
  audit_log : List AuditEntry
deriving DecidableEq

/-- `delete_invite_impl`: executes
`DELETE FROM user_invites WHERE "key" = ?1 AND NOT EXISTS (SELECT 1 FROM
users WHERE invite_key = ?1)` and then logs a `DeleteInvite` audit entry.
A row is deleted exactly when its key equals the parameter and no user row
has that key as its `invite_key`. -/
def delete_invite_impl (key : String) (db : Db) (name : String) : Db :=
  { db with
    user_invites := db.user_invites.filter (fun row =>
      !(row.key == key &&
        !(db.users.any (fun u => u.invite_key == some key))))
    audit_log := db.audit_log ++ [{ action := "DeleteInvite " ++ key,
                                    author := name }] }

/-- Hex digit (uppercase) of a value below 16, for percent-encoding. -/
def hexDigit (n : Nat) : Char :=
  if n < 10 then Char.ofNat (48 + n) else Char.ofNat (55 + n)

/-- Whether a byte is left unencoded by `urlencoding::encode`: ASCII
alphanumerics and `-`, `.`, `_`, `~`. -/
def isUrlUnreserved (b : Nat) : Bool :=
  (65 ≤ b && b ≤ 90) || (97 ≤ b && b ≤ 122) || (48 ≤ b && b ≤ 57) ||
  b == 45 || b == 46 || b == 95 || b == 126

/-- Percent-encoding of one byte. -/
def encodeByte (b : Nat) : List Char :=
  if isUrlUnreserved b then [Char.ofNat b]
  else ['%', hexDigit (b / 16), hexDigit (b % 16)]

/-- UTF-8 encoding of one character as its byte values. -/
def utf8Bytes (c : Char) : List Nat :=
  let n := c.toNat
  if n < 128 then [n]
  else if n < 2048 then [192 + n / 64, 128 + n % 64]
  else if n < 65536 then [224 + n / 4096, 128 + n / 64 % 64, 128 + n % 64]
  else [240 + n / 262144, 128 + n / 4096 % 64, 128 + n / 64 % 64,
        128 + n % 64]

/-- `urlencoding::encode`: percent-encode every non-unreserved byte of the
UTF-8 representation. -/
def urlencode (s : String) : String :=
  String.mk (((s.data.map utf8Bytes).flatten.map encodeByte).flatten)

/-- An HTTP redirect response as built by the invite handlers: a status code
and a `Location` header. -/
structure HttpResponse where
  status : Nat
  location : String
deriving DecidableEq

/-- The response construction of `delete_page`: the outcome of the database
call `delete_invite_impl` is the parameter (`Except.error` carries the error
message of a failed call).  Both branches build a `303 See Other` redirect
and the handler returns `Ok`. -/
def delete_page (result : Except String Unit) : Except String HttpResponse :=
  let redirect : String :=
    match result with
    | .ok _ => "/admin/invite#removed"
    | .error e => "/admin/invite?error=" ++ urlencode e
  .ok { status := 303, location := redirect }

/-- The service-selection form handling of `create_page`: keep the names of
the entries whose value is `"true"`, joined with commas. -/
def create_page_services (form : List (String × String)) : String :=
  String.intercalate ","
    ((form.filter (fun sv => sv.2 == "true")).map (·.1))

/-- The response construction of `create_page`: the outcome of the database
call `create_invite_impl` is the parameter.  Both branches build a
`303 See Other` redirect and the handler returns `Ok`. -/
def create_page (result : Except String Unit) : Except String HttpResponse :=
  let redirect : String :=
    match result with
    | .ok _ => "/admin/invite#added"
    | .error e => "/admin/invite?error=" ++ urlencode e
  .ok { status := 303, location := redirect }

/-- C2: `is_authorized` against an empty `PolicySet` denies every request,
and in general it returns true iff at least one rule of `policy` or
`group_policy` matches the request (deny-by-default, any matching allow rule
wins). -/
theorem is_authorized_deny_by_default (id : Identity)
    (resource action : String) (ps : PolicySet) :
    is_authorized id resource action { policy := [], group_policy := [] } = false ∧
    (is_authorized id resource action ps = true ↔
      (∃ r ∈ ps.policy, ruleMatchesUser id resource action r = true) ∨
      (∃ r ∈ ps.group_policy, ruleMatchesGroup id resource action r = true)) := by
  refine ⟨rfl, ?_⟩
  simp [is_authorized, List.any_eq_true]

/-- C3: a rule matches against `policy` exactly when its subject pattern
equals the username or is `"*"`, its resource equals the request's resource
or is `"*"`, and its action equals the request's action or is `"*"`; against
`group_policy` the subject pattern must instead equal some element of the
identity's groups or be `"*"`.  All comparisons are exact (case-sensitive)
string equality. -/
theorem rule_match_exact_equality (id : Identity) (resource action : String)
    (r : PolicyRule) :
    (ruleMatchesUser id resource action r = true ↔
      (r.subject = id.username ∨ r.subject = "*") ∧
      (r.resource = resource ∨ r.resource = "*") ∧
      (r.action = action ∨ r.action = "*")) ∧
    (ruleMatchesGroup id resource action r = true ↔
      ((∃ g ∈ id.groups, r.subject = g) ∨ r.subject = "*") ∧
      (r.resource = resource ∨ r.resource = "*") ∧
      (r.action = action ∨ r.action = "*")) := by
  constructor
  · simp [ruleMatchesUser, and_assoc]
  · simp [ruleMatchesGroup, List.contains_iff_exists_mem_beq, and_assoc]

/-- C8: every protected invite operation fixes its required
`(resource, action)` capability at definition time: `page` requires exactly
`("invite", "read")` and `delete_page` / `create_page` require exactly
`("invite", "write")`, independently of the request. -/
theorem invite_capabilities_static (req req2 : InviteRequest) :
    page_required_capability req = { resource := "invite", action := "read" } ∧
    delete_page_required_capability req =
      { resource := "invite", action := "write" } ∧
    create_page_required_capability req =
      { resource := "invite", action := "write" } ∧
    page_required_capability req = page_required_capability req2 ∧
    delete_page_required_capability req = delete_page_required_capability req2 ∧
    create_page_required_capability req = create_page_required_capability req2 :=
  ⟨rfl, rfl, rfl, rfl, rfl, rfl⟩

/-- C10: `delete_page` and `create_page` always return `Ok` with a
`303 See Other` redirect, whether the database call succeeded or failed: on
success the `Location` is an anchor on `/admin/invite`, on failure it is
`/admin/invite` with the error message URL-encoded into the `error` query
parameter; a database error is never propagated as `Err` or a non-redirect
status. -/
theorem invite_mutation_redirects (rd rc : Except String Unit) :
    (∃ resp, delete_page rd = .ok resp ∧ resp.status = 303 ∧
      (rd = .ok () → resp.location = "/admin/invite#removed") ∧
      (∀ e, rd = .error e →
        resp.location = "/admin/invite?error=" ++ urlencode e)) ∧
    (∃ resp, create_page rc = .ok resp ∧ resp.status = 303 ∧
      (rc = .ok () → resp.location = "/admin/invite#added") ∧
      (∀ e, rc = .error e →
        resp.location = "/admin/invite?error=" ++ urlencode e)) := by
  constructor
  · cases rd with
    | ok u =>
        cases u
        refine ⟨_, rfl, rfl, fun _ => rfl, ?_⟩
        intro e he
        exact nomatch he
    | error a =>
        refine ⟨_, rfl, rfl, ?_, ?_⟩
        · intro h
          exact nomatch h
        · intro e he
          injection he with h2
          subst h2
          rfl
  · cases rc with
    | ok u =>
        cases u
        refine ⟨_, rfl, rfl, fun _ => rfl, ?_⟩
        intro e he
        exact nomatch he
    | error a =>
        refine ⟨_, rfl, rfl, ?_, ?_⟩
        · intro h
          exact nomatch h
        · intro e he
          injection he with h2
          subst h2
          rfl

/-- Witness for C10 at a failing delete and a succeeding create. -/
theorem invite_mutation_redirects_witness :
    (∃ resp, delete_page (.error "nope") = .ok resp ∧ resp.status = 303 ∧
      ((Except.error "nope" : Except String Unit) = .ok () →
        resp.location = "/admin/invite#removed") ∧
      (∀ e, (Except.error "nope" : Except String Unit) = .error e →
        resp.location = "/admin/invite?error=" ++ urlencode e)) ∧
    (∃ resp, create_page (.ok ()) = .ok resp ∧ resp.status = 303 ∧
      ((Except.ok () : Except String Unit) = .ok () →
        resp.location = "/admin/invite#added") ∧
      (∀ e, (Except.ok () : Except String Unit) = .error e →
        resp.location = "/admin/invite?error=" ++ urlencode e)) :=
  invite_mutation_redirects (.error "nope") (.ok ())

/-- C9: `delete_invite_impl` removes the invite row with the given key only
when no user row references that key as its `invite_key`; an invite that has
already been used to register a user is left unchanged, and rows with other
keys are never removed. -/
theorem delete_invite_preserves_used (key : String) (db : Db) (name : String) :
    ((∃ u ∈ db.users, u.invite_key = some key) →
      (delete_invite_impl key db name).user_invites = db.user_invites) ∧
    ((¬ ∃ u ∈ db.users, u.invite_key = some key) →
      (delete_invite_impl key db name).user_invites =
        db.user_invites.filter (fun row => !(row.key == key))) := by
  constructor
  · intro h
    obtain ⟨u, hu, hk⟩ := h
    have hany : db.users.any (fun u => u.invite_key == some key) = true := by
      rw [List.any_eq_true]
      exact ⟨u, hu, by simp [hk]⟩
    simp [delete_invite_impl, hany]
  · intro h
    have hany : db.users.any (fun u => u.invite_key == some key) = false := by
      rw [Bool.eq_false_iff]
      intro hc
      rw [List.any_eq_true] at hc
      obtain ⟨u, hu, hk⟩ := hc
      exact h ⟨u, hu, by simpa using hk⟩
    simp [delete_invite_impl, hany]

/-- Witness for C9: a database where user `alice` was registered through
invite `k`; deleting `k` leaves the invite table unchanged. -/
theorem delete_invite_preserves_used_witness :
    (delete_invite_impl "k"
      { users := [{ username := "alice", invite_key := some "k" }],
        user_invites := [{ key := "k", created_by := "bob", created_at := 0,
                           services := "" }],
        audit_log := [] } "adm").user_invites =
      [{ key := "k", created_by := "bob", created_at := 0, services := "" }] :=
  (delete_invite_preserves_used "k"
    { users := [{ username := "alice", invite_key := some "k" }],
      user_invites := [{ key := "k", created_by := "bob", created_at := 0,
                         services := "" }],
      audit_log := [] } "adm").1
    ⟨{ username := "alice", invite_key := some "k" }, by simp, rfl⟩

/-- Deserializing the serialization of a list of JSON strings gives back the
list. -/
theorem mapOption_getStr_map (l : List String) :
    mapOption Json.getStr (l.map .str) = some l := by
  induction l with
  | nil => rfl
  | cons a t ih => simp [mapOption, Json.getStr, ih]

/-- Deserializing the serialization of a `Vec<Vec<String>>` gives back the
value, for inner lists of every length. -/
theorem mapOption_deserStringList_map (p : List (List String)) :
    mapOption deserStringList (p.map encodeStringList) = some p := by
  induction p with
  | nil => rfl
  | cons a t ih =>
      simp [mapOption, encodeStringList, deserStringList,
            mapOption_getStr_map, ih]

/-- Counterexample for C7: a permission-fetch body whose `policy` contains a
two-element row deserializes successfully into a `PermissionResponse`, so
the produced value does not consist of exactly-three-element triples. -/
theorem permission_response_nontriple_accepted :
    deserPermissionResponse
      (Json.obj [("policy", Json.arr [Json.arr [Json.str "a", Json.str "b"]]),
                 ("group_policy", Json.arr [])]) =
      some { policy := [["a", "b"]], group_policy := [] } ∧
    ¬ ∀ row ∈ ({ policy := [["a", "b"]], group_policy := [] } :
        PermissionResponse).policy, row.length = 3 := by
  refine ⟨rfl, ?_⟩
  intro h
  have := h ["a", "b"] (by simp)
  simp at this

/-- Deserializing the serialization of a policy field gives back the value,
for rows of every length. -/
theorem deserPolicyField_encode (p : List (List String)) :
    deserPolicyField (encodePolicyField p) = some p := by
  simp [deserPolicyField, encodePolicyField, mapOption_deserStringList_map]

/-- C7 (amended): the `policy` and `group_policy` fields of
`PermissionResponse` deserialize as sequences of string sequences of
arbitrary length, preserved exactly; the triple shape is not enforced by the
type or by deserialization. -/
theorem permission_response_any_row_length (p g : List (List String)) :
    deserPermissionResponse
      (Json.obj [("policy", encodePolicyField p),
                 ("group_policy", encodePolicyField g)]) =
      some { policy := p, group_policy := g } := by
  have hp : jsonField [("policy", encodePolicyField p),
      ("group_policy", encodePolicyField g)] "policy" =
      some (encodePolicyField p) := rfl
  have hg : jsonField [("policy", encodePolicyField p),
      ("group_policy", encodePolicyField g)] "group_policy" =
      some (encodePolicyField g) := rfl
  simp [deserPermissionResponse, hp, hg, deserPolicyField_encode]

/-- C1: a token that splits into three parts, base64url-decodes, carries a
MAC equal to the recomputed MAC, and whose claims deserialize with
`expires_at <= now` fails with `Expired` and never with `InvalidSignature`:
the signature comparison precedes the expiry check. -/
theorem signed_expired_token_fails_expired
    (mac : String → List Nat) (deser : List Nat → Option Claims)
    (token : String) (now : Int) (h p s : String) (hb pb sb : List Nat)
    (claims : Claims)
    (hsplit : splitOnDot token = [h, p, s])
    (hhdr : base64UrlDecode h = some hb)
    (hpay : base64UrlDecode p = some pb)
    (hsig : base64UrlDecode s = some sb)
    (hm : mac (h ++ "." ++ p) = sb)
    (hdes : deser pb = some claims)
    (hexp : claims.expires_at ≤ now) :
    decode_and_verify mac deser token now = .error .Expired ∧
    decode_and_verify mac deser token now ≠ .error .InvalidSignature := by
  have hres : decode_and_verify mac deser token now = .error .Expired := by
    simp only [decode_and_verify, hsplit, hhdr, hpay, hsig, hm, hdes,
               eq_self_iff_true, if_true]
    rw [if_neg (not_lt.mpr hexp)]
  refine ⟨hres, ?_⟩
  rw [hres]
  simp

/-- Witness for C1: a concrete correctly-signed token whose claims expired
exactly at `now = 0`. -/
theorem signed_expired_token_fails_expired_witness :
    decode_and_verify (fun _ => [0])
      (fun _ => some { username := "u", groups := [], issued_at := 0,
                       expires_at := 0 }) "AA.AA.AA" 0 = .error .Expired ∧
    decode_and_verify (fun _ => [0])
      (fun _ => some { username := "u", groups := [], issued_at := 0,
                       expires_at := 0 }) "AA.AA.AA" 0 ≠
      .error .InvalidSignature :=
  signed_expired_token_fails_expired (fun _ => [0])
    (fun _ => some { username := "u", groups := [], issued_at := 0,
                     expires_at := 0 })
    "AA.AA.AA" 0 "AA" "AA" "AA" [0] [0] [0]
    { username := "u", groups := [], issued_at := 0, expires_at := 0 }
    rfl rfl rfl rfl rfl rfl (le_refl 0)

/-- C4: when verification of the carried token reports `Expired` and the
refresh attempt fails — with either `RefreshError` — the authorize guard
produces the login redirect and never a capability denial; the two refresh
errors are indistinguishable at the guard boundary. -/
theorem failed_refresh_login_redirect
    (mac : String → List Nat) (deser : List Nat → Option Claims)
    (refresh : String → Except RefreshError String)
    (tok : String) (now : Int) (ps : PolicySet) (resource action : String)
    (e : RefreshError)
    (hdec : decode_and_verify mac deser tok now = .error .Expired)
    (href : refresh tok = .error e) :
    authorize_guard mac deser refresh (some tok) now ps resource action =
      .LoginRedirect ∧
    authorize_guard mac deser refresh (some tok) now ps resource action ≠
      .CapabilityDenied := by
  have hres : authorize_guard mac deser refresh (some tok) now ps
      resource action = .LoginRedirect := by
    simp only [authorize_guard, hdec, href]
  refine ⟨hres, ?_⟩
  rw [hres]
  simp

/-- Witness for C4: a concrete expired token with a refresh that reports the
IDP unavailable. -/
theorem failed_refresh_login_redirect_witness :
    authorize_guard (fun _ => [0])
      (fun _ => some { username := "u", groups := [], issued_at := 0,
                       expires_at := 0 })
      (fun _ => .error .Unavailable) (some "AA.AA.AA") 0
      { policy := [], group_policy := [] } "invite" "read" = .LoginRedirect ∧
    authorize_guard (fun _ => [0])
      (fun _ => some { username := "u", groups := [], issued_at := 0,
                       expires_at := 0 })
      (fun _ => .error .Unavailable) (some "AA.AA.AA") 0
      { policy := [], group_policy := [] } "invite" "read" ≠
      .CapabilityDenied :=
  failed_refresh_login_redirect (fun _ => [0])
    (fun _ => some { username := "u", groups := [], issued_at := 0,
                     expires_at := 0 })
    (fun _ => .error .Unavailable) "AA.AA.AA" 0
    { policy := [], group_policy := [] } "invite" "read" .Unavailable
    rfl rfl

/-- C5: `Variables::from_env` aborts (panics) exactly when one of the four
required environment values is absent or the token duration is present but
does not parse as a `u32`; on success it returns all four values unchanged
(the duration as its parsed value). -/
theorem variables_from_env_requires_all (env : Env) :
    (∀ v, Variables.from_env env = .ok v →
      envVar env "IDP_LOGIN_ADDR" = some v.idp_login_address ∧
      envVar env "IDP_REFRESH_ADDR" = some v.idp_refresh_address ∧
      (∃ ds, envVar env "TOKEN_DURATION_SECONDS" = some ds ∧
        parseU32 ds = some v.token_duration_seconds) ∧
      envVar env "SERVICE_NAME" = some v.service_name) ∧
    ((Variables.from_env env).isOk = false ↔
      envVar env "IDP_LOGIN_ADDR" = none ∨
      envVar env "IDP_REFRESH_ADDR" = none ∨
      envVar env "TOKEN_DURATION_SECONDS" = none ∨
      (∃ ds, envVar env "TOKEN_DURATION_SECONDS" = some ds ∧
        parseU32 ds = none) ∨
      envVar env "SERVICE_NAME" = none) := by
  cases hl : envVar env "IDP_LOGIN_ADDR" with
  | none => exact ⟨fun v hv => by simp [Variables.from_env, hl] at hv,
      by simp [Variables.from_env, hl, Except.isOk, Except.toBool]⟩
  | some login =>
  cases hr : envVar env "IDP_REFRESH_ADDR" with
  | none => exact ⟨fun v hv => by simp [Variables.from_env, hl, hr] at hv,
      by simp [Variables.from_env, hl, hr, Except.isOk, Except.toBool]⟩
  | some refresh =>
  cases hd : envVar env "TOKEN_DURATION_SECONDS" with
  | none => exact ⟨fun v hv => by simp [Variables.from_env, hl, hr, hd] at hv,
      by simp [Variables.from_env, hl, hr, hd, Except.isOk, Except.toBool]⟩
  | some ds =>
  cases hp : parseU32 ds with
  | none =>
      exact ⟨fun v hv => by simp [Variables.from_env, hl, hr, hd, hp] at hv,
        by simp [Variables.from_env, hl, hr, hd, hp, Except.isOk,
                 Except.toBool]⟩
  | some d =>
  cases hn : envVar env "SERVICE_NAME" with
  | none =>
      exact ⟨fun v hv => by
          simp [Variables.from_env, hl, hr, hd, hp, hn] at hv,
        by simp [Variables.from_env, hl, hr, hd, hp, hn, Except.isOk,
                 Except.toBool]⟩
  | some name =>
      constructor
      · intro v hv
        simp only [Variables.from_env, hl, hr, hd, hp, hn] at hv
        cases hv
        exact ⟨rfl, rfl, ⟨ds, rfl, hp⟩, rfl⟩
      · simp [Variables.from_env, hl, hr, hd, hp, hn, Except.isOk,
              Except.toBool]

/-- Witness for C5: a complete environment on which loading succeeds and
returns the four values. -/
theorem variables_from_env_requires_all_witness :
    envVar [("IDP_LOGIN_ADDR", "l"), ("IDP_REFRESH_ADDR", "r"),
            ("TOKEN_DURATION_SECONDS", "3600"), ("SERVICE_NAME", "svc")]
        "IDP_LOGIN_ADDR" = some "l" ∧
    envVar [("IDP_LOGIN_ADDR", "l"), ("IDP_REFRESH_ADDR", "r"),
            ("TOKEN_DURATION_SECONDS", "3600"), ("SERVICE_NAME", "svc")]
        "IDP_REFRESH_ADDR" = some "r" ∧
    (∃ ds, envVar [("IDP_LOGIN_ADDR", "l"), ("IDP_REFRESH_ADDR", "r"),
            ("TOKEN_DURATION_SECONDS", "3600"), ("SERVICE_NAME", "svc")]
        "TOKEN_DURATION_SECONDS" = some ds ∧ parseU32 ds = some 3600) ∧
    envVar [("IDP_LOGIN_ADDR", "l"), ("IDP_REFRESH_ADDR", "r"),
            ("TOKEN_DURATION_SECONDS", "3600"), ("SERVICE_NAME", "svc")]
        "SERVICE_NAME" = some "svc" :=
  (variables_from_env_requires_all
    [("IDP_LOGIN_ADDR", "l"), ("IDP_REFRESH_ADDR", "r"),
     ("TOKEN_DURATION_SECONDS", "3600"), ("SERVICE_NAME", "svc")]).1
    { idp_refresh_address := "r", idp_login_address := "l",
      token_duration_seconds := 3600, service_name := "svc" } rfl

/-- C6: `SecretKey::from_env` fails (panics) exactly when the secret value is
missing, is not valid base64, or the HMAC construction rejects the decoded
key (which for HMAC-SHA256 never happens); otherwise it returns the key
built from the decoded bytes. -/
theorem secret_key_from_env_failure_modes (env : Env) :
    ((SecretKey.from_env env).isOk = false ↔
      envVar env "IDP_SECRET_KEY" = none ∨
      (∃ s, envVar env "IDP_SECRET_KEY" = some s ∧ base64Decode s = none) ∨
      (∃ s bytes, envVar env "IDP_SECRET_KEY" = some s ∧
        base64Decode s = some bytes ∧
        (hmacNewFromSlice bytes).isOk = false)) ∧
    (∀ s bytes k, envVar env "IDP_SECRET_KEY" = some s →
      base64Decode s = some bytes → hmacNewFromSlice bytes = .ok k →
      SecretKey.from_env env = .ok { mac := k }) := by
  constructor
  · cases hs : envVar env "IDP_SECRET_KEY" with
    | none => simp [SecretKey.from_env, hs, Except.isOk, Except.toBool]
    | some s =>
      cases hb : base64Decode s with
      | none => simp [SecretKey.from_env, hs, hb, Except.isOk, Except.toBool]
      | some bytes =>
          simp [SecretKey.from_env, hs, hb, hmacNewFromSlice, Except.isOk,
                Except.toBool]
  · intro s bytes k hs hb hk
    simp only [SecretKey.from_env, hs, hb, hk]

/-- Witness for C6: a concrete environment whose secret is valid base64;
loading succeeds with the decoded key bytes. -/
theorem secret_key_from_env_failure_modes_witness :
    SecretKey.from_env [("IDP_SECRET_KEY", "aGk=")] =
      .ok { mac := { key := [104, 105] } } :=
  (secret_key_from_env_failure_modes [("IDP_SECRET_KEY", "aGk=")]).2
    "aGk=" [104, 105] { key := [104, 105] } rfl rfl rfl
